import Mathlib

/-!
Shallow embedding of the selection-state machine and validation engine of
the `search-schedule-selector` repository.

The repository contains two variants of the `SearchScheduleSelector`
component:

* the main variant (`src/SearchScheduleSelector.tsx`): click handling with
  toggle / fresh-start / adjacency / check-in-check-out range fill, a linear
  (non-wrapping) drag fill, and drag-end validation that clears on failure;
* the wrap-capable variant (`src/unnamed/part_008`): pure-toggle clicks with
  debounced validation, a circular (wrap-around) drag fill, and the same
  drag-end policy.

A JavaScript `Set<number>` is modelled as an insertion-ordered,
duplicate-free `List Nat`: `Set.add` appends when absent, `Set.delete`
removes, `Array.from` is the identity on the underlying list (JS sets
iterate in insertion order).
-/

/-- `Day` record from `DAYS_OF_WEEK` in the source. -/
structure Day where
  id : String
  singleLetter : String
  fullName : String
  index : Nat
deriving Repr, DecidableEq

/-- The `DAYS_OF_WEEK` constant: Sunday = 0 … Saturday = 6. -/
def DAYS_OF_WEEK : List Day :=
  [ ⟨"1", "S", "Sunday", 0⟩,
    ⟨"2", "M", "Monday", 1⟩,
    ⟨"3", "T", "Tuesday", 2⟩,
    ⟨"4", "W", "Wednesday", 3⟩,
    ⟨"5", "T", "Thursday", 4⟩,
    ⟨"6", "F", "Friday", 5⟩,
    ⟨"7", "S", "Saturday", 6⟩ ]

/-- `set.has(i)` on the insertion-ordered list model of a JS `Set`. -/
def setHas (s : List Nat) (i : Nat) : Bool := s.contains i

/-- `set.add(i)`: append when absent (JS sets keep insertion order). -/
def setAdd (s : List Nat) (i : Nat) : List Nat :=
  if s.contains i then s else s ++ [i]

/-- `set.delete(i)`: remove the element when present. -/
def setDelete (s : List Nat) (i : Nat) : List Nat :=
  s.filter (fun x => x ≠ i)

/-- `new Set(list)`: insert the elements left to right, dropping duplicates. -/
def setFromList (l : List Nat) : List Nat := l.foldl setAdd []

/-- Insert into an ascending list, keeping it ascending. -/
def insertSorted (x : Nat) : List Nat → List Nat
  | [] => [x]
  | y :: ys => if x ≤ y then x :: y :: ys else y :: insertSorted x ys

/-- `array.sort((a, b) => a - b)`: sort ascending. -/
def sortAsc : List Nat → List Nat
  | [] => []
  | x :: xs => insertSorted x (sortAsc xs)

/-- The first loop of `isContiguous`: every consecutive pair of the sorted
array differs by exactly 1. -/
def pairsDiffOne : List Nat → Bool
  | a :: b :: rest => (b - a == 1) && pairsDiffOne (b :: rest)
  | _ => true

/-- The gap scan of `isContiguous`: number of consecutive pairs differing by
more than 1 (the loop returns `false` as soon as it sees a second gap, which
agrees with testing this count). -/
def countGaps : List Nat → Nat
  | a :: b :: rest => (if b - a > 1 then 1 else 0) + countGaps (b :: rest)
  | _ => 0

/-- `isContiguous` from the source (identical in both variants): empty → true;
sorted with all consecutive differences 1 → true; otherwise exactly one gap
and last element 6 and first element 0 → true; else false. -/
def isContiguous (days : List Nat) : Bool :=
  if days.length == 0 then true
  else
    let daysArray := sortAsc days
    if pairsDiffOne daysArray then true
    else if countGaps daysArray ≥ 2 then false
    else if countGaps daysArray == 1 then
      -- wrap-around is valid only if last day is 6 and first day is 0
      (daysArray.getLastD 0 == 6) && (daysArray.headD 0 == 0)
    else false

/-- `ValidationResult` from `types`: `{ valid, error? }`. -/
structure ValidationResult where
  valid : Bool
  error : Option String
deriving Repr, DecidableEq

/-- The too-few-days message template of `validateSelection`. -/
def tooFewMsg (minDays : Nat) : String :=
  "Please select at least " ++ toString minDays ++ " night"
    ++ (if minDays > 1 then "s" else "") ++ " per week"

/-- The too-many-days message template of `validateSelection`. -/
def tooManyMsg (maxDays : Nat) : String :=
  "Please select no more than " ++ toString maxDays ++ " night"
    ++ (if maxDays > 1 then "s" else "") ++ " per week"

/-- The fixed contiguity message of `validateSelection`. -/
def contiguousMsg : String :=
  "Please select contiguous days (e.g., Mon-Tue-Wed, not Mon-Wed-Fri)"

/-- The component configuration props `{ minDays, maxDays, requireContiguous }`
(defaults 2, 5, true). -/
structure Config where
  minDays : Nat
  maxDays : Nat
  requireContiguous : Bool
deriving Repr, DecidableEq

/-- The default configuration of the component props. -/
def defaultConfig : Config := ⟨2, 5, true⟩

/-- `validateSelection` from the source (identical in both variants). -/
def validateSelection (cfg : Config) (days : List Nat) : ValidationResult :=
  let count := days.length
  if count == 0 then ⟨true, none⟩
  else if count < cfg.minDays then ⟨false, some (tooFewMsg cfg.minDays)⟩
  else if count > cfg.maxDays then ⟨false, some (tooManyMsg cfg.maxDays)⟩
  else if cfg.requireContiguous && !(isContiguous days) then
    ⟨false, some contiguousMsg⟩
  else ⟨true, none⟩

/-- The day count of the circular-run loop shared by the check-in/check-out
range fill and the wrap-capable drag fill:
`checkOut - checkIn + 1` when `checkOut ≥ checkIn`, else
`(7 - checkIn) + checkOut + 1`. -/
def circularRunCount (checkIn checkOut : Nat) : Nat :=
  if checkOut ≥ checkIn then checkOut - checkIn + 1
  else (7 - checkIn) + checkOut + 1

/-- The circular run itself: `dayCount` indices `(checkIn + i) % 7`, inserted
in loop order. -/
def circularRun (checkIn checkOut : Nat) : List Nat :=
  (List.range (circularRunCount checkIn checkOut)).map
    (fun i => (checkIn + i) % 7)

namespace Main

/-!
Main variant: `src/SearchScheduleSelector.tsx`.
-/

/-- Component state of the main variant: the selection set (insertion
ordered), the dragging flag, the drag anchor and the pending check-in day. -/
structure State where
  selectedDays : List Nat
  isDragging : Bool
  dragStart : Option Nat
  checkInDay : Option Nat
deriving Repr, DecidableEq

/-- Initial state from the `initialSelection` prop. -/
def initState (initialSelection : List Nat) : State :=
  ⟨setFromList initialSelection, false, none, none⟩

/-- `handleDayClick`: toggle off / fresh start / adjacent add /
check-in-check-out range fill with immediate validation and rollback.
Returns the new state and the error surfaced via `displayError`, if any. -/
def handleDayClick (cfg : Config) (dayIndex : Nat) (s : State) :
    State × Option String :=
  -- prevent click during drag
  if s.isDragging then (s, none)
  -- clicking an already selected day toggles it off and resets check-in
  else if setHas s.selectedDays dayIndex then
    ({ s with selectedDays := setDelete s.selectedDays dayIndex,
              checkInDay := none }, none)
  -- no days selected yet: start fresh
  else if s.selectedDays.length == 0 then
    ({ s with selectedDays := [dayIndex], checkInDay := some dayIndex }, none)
  else
    let prevArray := sortAsc s.selectedDays
    let minDay := prevArray.headD 0
    let maxDay := prevArray.getLastD 0
    -- (minDay - 1 + 7) % 7 on JS integers equals (minDay + 6) % 7 on Nat
    let isAdjacentAfter := dayIndex == (maxDay + 1) % 7
    let isAdjacentBefore := dayIndex == (minDay + 6) % 7
    if isAdjacentAfter || isAdjacentBefore then
      -- day-by-day mode: just add this day, no validation yet
      ({ s with selectedDays := setAdd s.selectedDays dayIndex }, none)
    else
      -- check-in/check-out mode: auto-fill range from check-in to check-out
      let checkIn := s.checkInDay.getD minDay
      let newSelection := circularRun checkIn dayIndex
      let validation := validateSelection cfg newSelection
      match validation.valid, validation.error with
      | false, some err => (s, some err)
      | _, _ =>
        ({ s with selectedDays := newSelection, checkInDay := none }, none)

/-- `handleDragStart`: enter dragging with `{dayIndex}` as the fresh set. -/
def handleDragStart (dayIndex : Nat) (s : State) : State :=
  { s with isDragging := true, dragStart := some dayIndex,
           selectedDays := [dayIndex] }

/-- `handleDragOver` of the main variant: LINEAR fill from
`min(dragStart, dayIndex)` to `max(dragStart, dayIndex)` — no wrap-around. -/
def handleDragOver (dayIndex : Nat) (s : State) : State :=
  match s.dragStart with
  | none => s
  | some ds =>
    if !s.isDragging then s
    else
      let start := Nat.min ds dayIndex
      let stop := Nat.max ds dayIndex
      { s with selectedDays :=
          (List.range (stop + 1 - start)).map (fun i => start + i) }

/-- `handleDragEnd`: validate the final set; on failure display the error and
clear the set; always exit the dragging state. -/
def handleDragEnd (cfg : Config) (s : State) : State × Option String :=
  let validation := validateSelection cfg s.selectedDays
  match validation.valid, validation.error with
  | false, some err =>
    ({ s with selectedDays := [], isDragging := false, dragStart := none },
     some err)
  | _, _ => ({ s with isDragging := false, dragStart := none }, none)

/-- `handleReset`: clear the selection and the pending check-in day. -/
def handleReset (s : State) : State :=
  { s with selectedDays := [], checkInDay := none }

/-- The list handed to `onSelectionChange` by the selection-change effect:
`Array.from(selectedDays).map(index => DAYS_OF_WEEK[index])`, i.e. the
`Day` records in the set's insertion order (the sentinel day models the JS
`undefined` for an out-of-range index, unreachable under the invariant). -/
def notifyList (s : State) : List Day :=
  s.selectedDays.map (fun i => DAYS_OF_WEEK.getD i ⟨"", "", "", 7⟩)

/-- The gesture operations exposed to the rendering layer. -/
inductive Op where
  | click (i : Nat)
  | dragStart (i : Nat)
  | dragOver (i : Nat)
  | dragEnd
  | reset
deriving Repr, DecidableEq

/-- One gesture applied to a state (discarding the surfaced error). -/
def step (cfg : Config) (s : State) : Op → State
  | Op.click i => (handleDayClick cfg i s).1
  | Op.dragStart i => handleDragStart i s
  | Op.dragOver i => handleDragOver i s
  | Op.dragEnd => (handleDragEnd cfg s).1
  | Op.reset => handleReset s

/-- A gesture trace applied left to right. -/
def run (cfg : Config) (s : State) (ops : List Op) : State :=
  ops.foldl (step cfg) s

/-- The gesture argument, if any, is an index in [0,6]. -/
def opWF : Op → Prop
  | Op.click i => i < 7
  | Op.dragStart i => i < 7
  | Op.dragOver i => i < 7
  | Op.dragEnd => True
  | Op.reset => True

instance : DecidablePred opWF := by
  intro op; cases op <;> simp [opWF] <;> infer_instance

/-- Well-formed state: every stored index is in [0,6]. -/
def WF (s : State) : Prop :=
  (∀ x ∈ s.selectedDays, x < 7) ∧
  (∀ x, s.dragStart = some x → x < 7) ∧
  (∀ x, s.checkInDay = some x → x < 7)

instance : DecidablePred WF := by
  intro s; unfold WF; infer_instance

end Main

namespace P8

/-!
Wrap-capable variant: `src/unnamed/part_008`. `isContiguous` and
`validateSelection` are textually identical to the main variant; clicks are
a pure toggle with debounced validation (the timer only re-validates, it
never mutates the set, so it is not part of the selection state); the drag
fill is circular.
-/

/-- Component state of the wrap-capable variant (no check-in day). -/
structure State where
  selectedDays : List Nat
  isDragging : Bool
  dragStart : Option Nat
deriving Repr, DecidableEq

/-- Initial state from the `initialSelection` prop. -/
def initState (initialSelection : List Nat) : State :=
  ⟨setFromList initialSelection, false, none⟩

/-- `handleDayClick` of the wrap-capable variant: simple toggle (validation
is only scheduled on a timer, the set mutation is unconditional). -/
def handleDayClick (dayIndex : Nat) (s : State) : State :=
  if s.isDragging then s
  else if setHas s.selectedDays dayIndex then
    { s with selectedDays := setDelete s.selectedDays dayIndex }
  else
    { s with selectedDays := setAdd s.selectedDays dayIndex }

/-- `handleDragStart`: enter dragging with `{dayIndex}` as the fresh set. -/
def handleDragStart (dayIndex : Nat) (s : State) : State :=
  { s with isDragging := true, dragStart := some dayIndex,
           selectedDays := [dayIndex] }

/-- `handleDragOver` of the wrap-capable variant: circular fill from the drag
anchor to the hovered index (wrap through 6→0), re-derived from the anchor on
every call. The inline day-count and fill loop are the same algorithm as
`circularRun`. -/
def handleDragOver (dayIndex : Nat) (s : State) : State :=
  match s.dragStart with
  | none => s
  | some ds =>
    if !s.isDragging then s
    else { s with selectedDays := circularRun ds dayIndex }

/-- `handleDragEnd`: clear the dragging flags, then (when the set is
non-empty) validate; on failure display the error and clear the set. -/
def handleDragEnd (cfg : Config) (s : State) : State × Option String :=
  let s1 := { s with isDragging := false, dragStart := none }
  if s1.selectedDays.length > 0 then
    let validation := validateSelection cfg s1.selectedDays
    match validation.valid, validation.error with
    | false, some err => ({ s1 with selectedDays := [] }, some err)
    | _, _ => (s1, none)
  else (s1, none)

/-- `handleReset`: clear the selection (and cancel the pending timer). -/
def handleReset (s : State) : State :=
  { s with selectedDays := [] }

/-- The list handed to `onSelectionChange` by the selection-change effect
(same code as the main variant). -/
def notifyList (s : State) : List Day :=
  s.selectedDays.map (fun i => DAYS_OF_WEEK.getD i ⟨"", "", "", 7⟩)

/-- The gesture operations exposed to the rendering layer. -/
inductive Op where
  | click (i : Nat)
  | dragStart (i : Nat)
  | dragOver (i : Nat)
  | dragEnd
  | reset
deriving Repr, DecidableEq

/-- One gesture applied to a state (discarding the surfaced error). -/
def step (cfg : Config) (s : State) : Op → State
  | Op.click i => handleDayClick i s
  | Op.dragStart i => handleDragStart i s
  | Op.dragOver i => handleDragOver i s
  | Op.dragEnd => (handleDragEnd cfg s).1
  | Op.reset => handleReset s

/-- A gesture trace applied left to right. -/
def run (cfg : Config) (s : State) (ops : List Op) : State :=
  ops.foldl (step cfg) s

/-- The gesture argument, if any, is an index in [0,6]. -/
def opWF : Op → Prop
  | Op.click i => i < 7
  | Op.dragStart i => i < 7
  | Op.dragOver i => i < 7
  | Op.dragEnd => True
  | Op.reset => True

instance : DecidablePred opWF := by
  intro op; cases op <;> simp [opWF] <;> infer_instance

/-- Well-formed state: every stored index is in [0,6]. -/
def WF (s : State) : Prop :=
  (∀ x ∈ s.selectedDays, x < 7) ∧
  (∀ x, s.dragStart = some x → x < 7)

instance : DecidablePred WF := by
  intro s; unfold WF; infer_instance

end P8

/-!
Shared helper definitions and lemmas for the claim theorems.
-/

/-- The ascending enumeration of a subset of [0,6] given by its seven
membership bits (Sunday … Saturday). -/
def selBits (b0 b1 b2 b3 b4 b5 b6 : Bool) : List Nat :=
  (if b0 then [0] else []) ++ (if b1 then [1] else []) ++
  (if b2 then [2] else []) ++ (if b3 then [3] else []) ++
  (if b4 then [4] else []) ++ (if b5 then [5] else []) ++
  (if b6 then [6] else [])

/-- Every consecutive pair of `l` differs by exactly 1 (the spec's wording
for a simple non-wrapping run). -/
def consecutiveOnes (l : List Nat) : Prop :=
  ∀ i, i < l.length - 1 → l.getD (i + 1) 0 = l.getD i 0 + 1

instance : DecidablePred consecutiveOnes := by
  intro l; unfold consecutiveOnes; infer_instance

/-- `validateSelection` yields either a valid result with no message or an
invalid result with a message. -/
theorem validateSelection_shape (cfg : Config) (days : List Nat) :
    validateSelection cfg days = ⟨true, none⟩ ∨
    ∃ e, validateSelection cfg days = ⟨false, some e⟩ := by
  unfold validateSelection
  dsimp only
  split
  · exact Or.inl rfl
  · split
    · exact Or.inr ⟨_, rfl⟩
    · split
      · exact Or.inr ⟨_, rfl⟩
      · split
        · exact Or.inr ⟨_, rfl⟩
        · exact Or.inl rfl

/-- A `contains`-check returning `false` means non-membership. -/
theorem contains_false_not_mem {l : List Nat} {i : Nat}
    (h : l.contains i = false) : i ∉ l := by
  simpa using h

/-- Deleting an absent element is the identity. -/
theorem setDelete_of_not_contains {l : List Nat} {i : Nat}
    (h : l.contains i = false) : setDelete l i = l := by
  unfold setDelete
  rw [List.filter_eq_self]
  intro a ha
  have hne : a ≠ i := fun hai => contains_false_not_mem h (hai ▸ ha)
  simp [hne]

/-- Deleting the element just appended to a set not containing it restores
the set. -/
theorem setDelete_append {l : List Nat} {i : Nat}
    (h : l.contains i = false) : setDelete (l ++ [i]) i = l := by
  unfold setDelete
  rw [List.filter_append]
  have h1 : List.filter (fun x => decide (x ≠ i)) l = l := setDelete_of_not_contains h
  have h2 : List.filter (fun x => decide (x ≠ i)) [i] = [] := by simp
  rw [h1, h2, List.append_nil]

/-- Every element of a circular run is an index in [0,6]. -/
theorem circularRun_mem_lt {a b x : Nat} (h : x ∈ circularRun a b) : x < 7 := by
  unfold circularRun at h
  simp only [List.mem_map, List.mem_range] at h
  obtain ⟨k, _, hk⟩ := h
  subst hk
  exact Nat.mod_lt _ (by omega)

/-- Every element of the linear drag fill from `a` to `b` lies in `[a, b]`. -/
theorem linearFill_mem_le {a b x : Nat}
    (h : x ∈ (List.range (b + 1 - a)).map (fun i => a + i)) : x ≤ b := by
  simp only [List.mem_map, List.mem_range] at h
  obtain ⟨k, hk, hx⟩ := h
  omega

/-- For an in-range index, the `DAYS_OF_WEEK` lookup returns the record whose
`index` field is that index. -/
theorem DAYS_OF_WEEK_getD_index :
    ∀ i, i < 7 → (DAYS_OF_WEEK.getD i ⟨"", "", "", 7⟩).index = i := by decide

/-- For an in-range index, the `DAYS_OF_WEEK` lookup is a member of the
table. -/
theorem DAYS_OF_WEEK_getD_mem :
    ∀ i, i < 7 → (DAYS_OF_WEEK.getD i ⟨"", "", "", 7⟩) ∈ DAYS_OF_WEEK := by
  decide

/-- Empty selections validate as valid. -/
theorem validate_empty (cfg : Config) : validateSelection cfg [] = ⟨true, none⟩ :=
  rfl

/-- A non-empty selection below `minDays` fails with the too-few message. -/
theorem validate_too_few (cfg : Config) (days : List Nat) (hne : days ≠ [])
    (hlt : days.length < cfg.minDays) :
    validateSelection cfg days = ⟨false, some (tooFewMsg cfg.minDays)⟩ := by
  unfold validateSelection
  have h0 : (days.length == 0) = false := by
    simpa [List.length_eq_zero] using hne
  simp [h0, hlt]

/-- A selection above `maxDays` (that is not below `minDays`) fails with the
too-many message. -/
theorem validate_too_many (cfg : Config) (days : List Nat)
    (hmin : cfg.minDays ≤ days.length) (hmax : cfg.maxDays < days.length) :
    validateSelection cfg days = ⟨false, some (tooManyMsg cfg.maxDays)⟩ := by
  unfold validateSelection
  have h0 : (days.length == 0) = false := by
    simp only [beq_eq_false_iff_ne, ne_eq]
    omega
  simp [h0, Nat.not_lt.mpr hmin, hmax]

/-- A non-empty selection within the count bounds but non-contiguous fails
with the fixed contiguity message when contiguity is required. -/
theorem validate_non_contiguous (cfg : Config) (days : List Nat) (hne : days ≠ [])
    (hmin : cfg.minDays ≤ days.length) (hmax : days.length ≤ cfg.maxDays)
    (hrc : cfg.requireContiguous = true) (hc : isContiguous days = false) :
    validateSelection cfg days = ⟨false, some contiguousMsg⟩ := by
  unfold validateSelection
  have h0 : (days.length == 0) = false := by
    simpa [List.length_eq_zero] using hne
  simp [h0, Nat.not_lt.mpr hmin, Nat.not_lt.mpr hmax, hrc, hc]

/-- A selection within the count bounds that is contiguous whenever required
is valid. -/
theorem validate_valid (cfg : Config) (days : List Nat)
    (hmin : cfg.minDays ≤ days.length) (hmax : days.length ≤ cfg.maxDays)
    (hc : cfg.requireContiguous = true → isContiguous days = true) :
    validateSelection cfg days = ⟨true, none⟩ := by
  unfold validateSelection
  by_cases h0 : days.length = 0
  · simp [h0]
  · have h0b : (days.length == 0) = false := by simpa using h0
    have hb : (cfg.requireContiguous && !(isContiguous days)) = false := by
      cases hrc : cfg.requireContiguous
      · simp
      · simp [hc hrc]
    simp [h0b, Nat.not_lt.mpr hmin, Nat.not_lt.mpr hmax, hb]

/-- C3: `isContiguous(S)` is true iff `S` is empty, or the ascending sort of
`S` has every consecutive pair differing by exactly 1, or it has exactly one
gap and the maximum of `S` is 6 and the minimum is 0; concretely
`isContiguous({1,2,3})` = true, `isContiguous({1,3,5})` = false,
`isContiguous({5,6,0,1})` = true, `isContiguous({5,6,0,2})` = false,
`isContiguous({})` = true. -/
theorem C3_isContiguous_characterization :
    (∀ b0 b1 b2 b3 b4 b5 b6 : Bool,
      (isContiguous (selBits b0 b1 b2 b3 b4 b5 b6) = true ↔
        (selBits b0 b1 b2 b3 b4 b5 b6 = [] ∨
         consecutiveOnes (selBits b0 b1 b2 b3 b4 b5 b6) ∨
         (countGaps (selBits b0 b1 b2 b3 b4 b5 b6) = 1 ∧
          (selBits b0 b1 b2 b3 b4 b5 b6).head? = some 0 ∧
          (selBits b0 b1 b2 b3 b4 b5 b6).getLast? = some 6)))) ∧
    isContiguous [1, 2, 3] = true ∧
    isContiguous [1, 3, 5] = false ∧
    isContiguous [5, 6, 0, 1] = true ∧
    isContiguous [5, 6, 0, 2] = false ∧
    isContiguous [] = true := by
  decide

/-- C4: `validateSelection` applies its checks in order, returning at the
first failure: empty always valid; below `minDays` → too-few message; above
`maxDays` → too-many message; required contiguity violated → fixed
contiguity message; else valid. With `minDays = 2`, `maxDays = 5`: size 1 is
too few, size 2 contiguous is valid, size 6 is too many, size 5 contiguous
is valid. -/
theorem C4_validateSelection_order :
    (∀ cfg : Config, validateSelection cfg [] = ⟨true, none⟩) ∧
    (∀ (cfg : Config) (days : List Nat), days ≠ [] →
      days.length < cfg.minDays →
      validateSelection cfg days = ⟨false, some (tooFewMsg cfg.minDays)⟩) ∧
    (∀ (cfg : Config) (days : List Nat),
      cfg.minDays ≤ days.length → cfg.maxDays < days.length →
      validateSelection cfg days = ⟨false, some (tooManyMsg cfg.maxDays)⟩) ∧
    (∀ (cfg : Config) (days : List Nat), days ≠ [] →
      cfg.minDays ≤ days.length → days.length ≤ cfg.maxDays →
      cfg.requireContiguous = true → isContiguous days = false →
      validateSelection cfg days = ⟨false, some contiguousMsg⟩) ∧
    (∀ (cfg : Config) (days : List Nat),
      cfg.minDays ≤ days.length → days.length ≤ cfg.maxDays →
      (cfg.requireContiguous = true → isContiguous days = true) →
      validateSelection cfg days = ⟨true, none⟩) ∧
    validateSelection defaultConfig [3] = ⟨false, some (tooFewMsg 2)⟩ ∧
    validateSelection defaultConfig [3, 4] = ⟨true, none⟩ ∧
    validateSelection defaultConfig [0, 1, 2, 3, 4, 5]
      = ⟨false, some (tooManyMsg 5)⟩ ∧
    validateSelection defaultConfig [1, 2, 3, 4, 5] = ⟨true, none⟩ := by
  exact ⟨validate_empty, validate_too_few, validate_too_many,
    validate_non_contiguous, validate_valid,
    by decide, by decide, by decide, by decide⟩

/-- C4 witness: the too-few branch applied at the concrete singleton
selection under the default configuration. -/
theorem C4_validateSelection_order_witness :
    validateSelection defaultConfig [3]
      = ⟨false, some (tooFewMsg defaultConfig.minDays)⟩ :=
  C4_validateSelection_order.2.1 defaultConfig [3] (by decide) (by decide)

/-- C5: for all `start, end ∈ [0,6]` the circular run from `start` to `end`
has length `(end - start + 7) % 7 + 1` (computed as `end + 7 - start` to stay
in ℕ), has no duplicates, and its `k`-th element is `(start + k) % 7`;
concretely `circularRun 5 2 = [5,6,0,1,2]` of size 5. -/
theorem C5_circularRun_spec :
    (∀ st en : Fin 7,
      (circularRun st.val en.val).length = (en.val + 7 - st.val) % 7 + 1 ∧
      (circularRun st.val en.val).Nodup ∧
      (∀ k : Fin (circularRun st.val en.val).length,
        (circularRun st.val en.val).get k = (st.val + k.val) % 7)) ∧
    circularRun 5 2 = [5, 6, 0, 1, 2] ∧
    (circularRun 5 2).length = 5 := by
  decide

/-- C6: in check-in/check-out range-fill mode (a click on an unselected,
non-adjacent day while not dragging, with a non-empty selection), the circular
run from the pending anchor (or the current minimum when none) to the clicked
day is validated immediately: on failure the selection stays exactly the
previous set and the error message is surfaced; on success the set becomes
the run and the pending check-in anchor is cleared. -/
theorem C6_rangeFill_rollback :
    ∀ (cfg : Config) (s : Main.State) (i : Nat),
      s.isDragging = false →
      setHas s.selectedDays i = false →
      s.selectedDays ≠ [] →
      i ≠ ((sortAsc s.selectedDays).getLastD 0 + 1) % 7 →
      i ≠ ((sortAsc s.selectedDays).headD 0 + 6) % 7 →
      (((validateSelection cfg
          (circularRun (s.checkInDay.getD ((sortAsc s.selectedDays).headD 0))
            i)).valid = false →
        Main.handleDayClick cfg i s
          = (s, (validateSelection cfg
              (circularRun
                (s.checkInDay.getD ((sortAsc s.selectedDays).headD 0))
                i)).error)) ∧
       ((validateSelection cfg
          (circularRun (s.checkInDay.getD ((sortAsc s.selectedDays).headD 0))
            i)).valid = true →
        Main.handleDayClick cfg i s
          = ({ s with selectedDays := circularRun (s.checkInDay.getD ((sortAsc s.selectedDays).headD 0)) i, checkInDay := none }, none))) := by
  intro cfg s i h1 h2 hne hadj1 hadj2
  have h2' : s.selectedDays.contains i = false := h2
  have hlen : (s.selectedDays.length == 0) = false := by
    simpa [List.length_eq_zero] using hne
  have hb1 : (i == ((sortAsc s.selectedDays).getLastD 0 + 1) % 7) = false := by
    simpa using hadj1
  have hb2 : (i == ((sortAsc s.selectedDays).headD 0 + 6) % 7) = false := by
    simpa using hadj2
  rcases validateSelection_shape cfg
      (circularRun (s.checkInDay.getD ((sortAsc s.selectedDays).headD 0)) i)
    with hv | ⟨e, hv⟩
  · constructor
    · intro hfalse
      rw [hv] at hfalse
      simp at hfalse
    · intro _
      unfold Main.handleDayClick
      simp only [h1, Bool.false_eq_true, if_false, setHas, h2', hlen, hb1, hb2,
        Bool.or_self, hv]
  · constructor
    · intro _
      unfold Main.handleDayClick
      simp only [h1, Bool.false_eq_true, if_false, setHas, h2', hlen, hb1, hb2,
        Bool.or_self, hv]
    · intro htrue
      rw [hv] at htrue
      simp at htrue

/-- C6 witness: clicking day 2 with anchor 5 and selection {5} commits the
wrap-around run Fri–Tue and clears the anchor. -/
theorem C6_rangeFill_rollback_witness :
    Main.handleDayClick defaultConfig 2 ⟨[5], false, none, some 5⟩
      = (⟨circularRun ((some 5 : Option Nat).getD ((sortAsc [5]).headD 0)) 2,
          false, none, none⟩, none) :=
  (C6_rangeFill_rollback defaultConfig ⟨[5], false, none, some 5⟩ 2 rfl
    (by decide) (by decide) (by decide) (by decide)).2 (by decide)

/-- C7: in both variants `endDrag` exits the dragging state and validates the
final set immediately; a rejected final set is cleared to empty (not rolled
back) with the validation error surfaced, and an accepted final set is left
unchanged. -/
theorem C7_dragEnd_validation :
    (∀ (cfg : Config) (s : Main.State),
      ((validateSelection cfg s.selectedDays).valid = true →
        Main.handleDragEnd cfg s
          = ({ s with isDragging := false, dragStart := none }, none)) ∧
      ((validateSelection cfg s.selectedDays).valid = false →
        Main.handleDragEnd cfg s
          = ({ s with selectedDays := [], isDragging := false, dragStart := none },
             (validateSelection cfg s.selectedDays).error))) ∧
    (∀ (cfg : Config) (s : P8.State),
      ((validateSelection cfg s.selectedDays).valid = true →
        P8.handleDragEnd cfg s
          = ({ s with isDragging := false, dragStart := none }, none)) ∧
      ((validateSelection cfg s.selectedDays).valid = false →
        P8.handleDragEnd cfg s
          = ({ s with selectedDays := [], isDragging := false, dragStart := none },
             (validateSelection cfg s.selectedDays).error))) := by
  constructor
  · intro cfg s
    rcases validateSelection_shape cfg s.selectedDays with hv | ⟨e, hv⟩
    · constructor
      · intro _
        simp [Main.handleDragEnd, hv]
      · intro hfalse
        rw [hv] at hfalse
        simp at hfalse
    · constructor
      · intro htrue
        rw [hv] at htrue
        simp at htrue
      · intro _
        simp [Main.handleDragEnd, hv]
  · intro cfg s
    rcases validateSelection_shape cfg s.selectedDays with hv | ⟨e, hv⟩
    · constructor
      · intro _
        by_cases hlen : s.selectedDays.length > 0
        · simp [P8.handleDragEnd, hlen, hv]
        · simp [P8.handleDragEnd, hlen]
      · intro hfalse
        rw [hv] at hfalse
        simp at hfalse
    · constructor
      · intro htrue
        rw [hv] at htrue
        simp at htrue
      · intro _
        have hne : s.selectedDays ≠ [] := by
          intro hnil
          rw [hnil] at hv
          have hemp : validateSelection cfg [] = ⟨true, none⟩ := rfl
          rw [hemp] at hv
          cases hv
        have hlen : s.selectedDays.length > 0 := by
          cases hsel : s.selectedDays with
          | nil => exact absurd hsel hne
          | cons a l => simp [hsel]
        simp [P8.handleDragEnd, hlen, hv]

/-- C7 witness: ending a drag on the non-contiguous set {1,3} clears the
selection and surfaces the validation error. -/
theorem C7_dragEnd_validation_witness :
    Main.handleDragEnd defaultConfig ⟨[1, 3], true, some 1, none⟩
      = (⟨[], false, none, none⟩,
         (validateSelection defaultConfig [1, 3]).error) :=
  (C7_dragEnd_validation.1 defaultConfig ⟨[1, 3], true, some 1, none⟩).2
    (by decide)

/-- C8: clicking an unselected day twice in succession restores the original
selection set: in the main variant whenever the first click does not trigger
the range-fill condition (empty selection, or a circularly adjacent day), and
in the pure-toggle variant unconditionally. -/
theorem C8_toggle_involutive :
    (∀ (cfg : Config) (s : Main.State) (i : Nat),
      s.isDragging = false →
      setHas s.selectedDays i = false →
      (s.selectedDays = [] ∨
       i = ((sortAsc s.selectedDays).getLastD 0 + 1) % 7 ∨
       i = ((sortAsc s.selectedDays).headD 0 + 6) % 7) →
      ((Main.handleDayClick cfg i
          (Main.handleDayClick cfg i s).1).1).selectedDays = s.selectedDays) ∧
    (∀ (s : P8.State) (i : Nat),
      s.isDragging = false →
      setHas s.selectedDays i = false →
      (P8.handleDayClick i (P8.handleDayClick i s)).selectedDays
        = s.selectedDays) := by
  constructor
  · intro cfg s i h1 h2 h3
    have h2' : s.selectedDays.contains i = false := h2
    by_cases hemp : s.selectedDays = []
    · have e1 : (Main.handleDayClick cfg i s).1
          = { s with selectedDays := [i], checkInDay := some i } := by
        unfold Main.handleDayClick
        simp [h1, setHas, hemp]
      rw [e1]
      unfold Main.handleDayClick
      simp [h1, setHas, setDelete, hemp]
    · have hlen : (s.selectedDays.length == 0) = false := by
        simpa [List.length_eq_zero] using hemp
      have hadj :
          ((i == ((sortAsc s.selectedDays).getLastD 0 + 1) % 7)
            || (i == ((sortAsc s.selectedDays).headD 0 + 6) % 7)) = true := by
        rcases h3 with h3 | h3 | h3
        · exact absurd h3 hemp
        · simp [h3]
        · simp [h3]
      have e1 : (Main.handleDayClick cfg i s).1
          = { s with selectedDays := s.selectedDays ++ [i] } := by
        unfold Main.handleDayClick
        simp only [h1, Bool.false_eq_true, if_false, setHas, h2', hlen, hadj,
          if_true, setAdd]
      rw [e1]
      unfold Main.handleDayClick
      have hc : (s.selectedDays ++ [i]).contains i = true := by
        simp
      simp only [h1, Bool.false_eq_true, if_false, setHas, hc, if_true]
      simpa using setDelete_append h2'
  · intro s i h1 h2
    have h2' : s.selectedDays.contains i = false := h2
    have e1 : P8.handleDayClick i s
        = { s with selectedDays := s.selectedDays ++ [i] } := by
      unfold P8.handleDayClick
      simp only [h1, Bool.false_eq_true, if_false, setHas, h2', setAdd]
    rw [e1]
    unfold P8.handleDayClick
    have hc : (s.selectedDays ++ [i]).contains i = true := by
      simp
    simp only [h1, Bool.false_eq_true, if_false, setHas, hc, if_true]
    simpa using setDelete_append h2'

/-- C8 witness: with selection {1,2}, clicking the adjacent day 3 twice
restores {1,2}. -/
theorem C8_toggle_involutive_witness :
    ((Main.handleDayClick defaultConfig 3
        (Main.handleDayClick defaultConfig 3
          ⟨[1, 2], false, none, none⟩).1).1).selectedDays = [1, 2] :=
  C8_toggle_involutive.1 defaultConfig ⟨[1, 2], false, none, none⟩ 3 rfl
    (by decide) (by decide)

/-- C10: the gesture guards are no-ops: in both variants a day click while
the dragging flag is set leaves the whole state (selection set and pending
check-in anchor included) unchanged and surfaces no error, and `dragOver`
leaves the state unchanged when the dragging flag is unset or the drag
anchor is absent. -/
theorem C10_gesture_guards :
    (∀ (cfg : Config) (i : Nat) (s : Main.State), s.isDragging = true →
      Main.handleDayClick cfg i s = (s, none)) ∧
    (∀ (i : Nat) (s : Main.State),
      s.isDragging = false ∨ s.dragStart = none →
      Main.handleDragOver i s = s) ∧
    (∀ (i : Nat) (s : P8.State), s.isDragging = true →
      P8.handleDayClick i s = s) ∧
    (∀ (i : Nat) (s : P8.State),
      s.isDragging = false ∨ s.dragStart = none →
      P8.handleDragOver i s = s) := by
  refine ⟨?_, ?_, ?_, ?_⟩
  · intro cfg i s h
    unfold Main.handleDayClick
    simp [h]
  · intro i s h
    unfold Main.handleDragOver
    rcases hds : s.dragStart with _ | ds
    · rfl
    · rcases h with h | h
      · simp [h]
      · rw [hds] at h
        cases h
  · intro i s h
    unfold P8.handleDayClick
    simp [h]
  · intro i s h
    unfold P8.handleDragOver
    rcases hds : s.dragStart with _ | ds
    · rfl
    · rcases h with h | h
      · simp [h]
      · rw [hds] at h
        cases h

/-- C10 witness: a click on day 4 while dragging is a no-op. -/
theorem C10_gesture_guards_witness :
    Main.handleDayClick defaultConfig 4 ⟨[2], true, some 2, none⟩
      = (⟨[2], true, some 2, none⟩, none) :=
  C10_gesture_guards.1 defaultConfig 4 ⟨[2], true, some 2, none⟩ rfl

/-- Clicks of the main variant preserve the index-range invariant. -/
theorem mainClick_WF (cfg : Config) (i : Nat) (s : Main.State)
    (hs : Main.WF s) (hi : i < 7) :
    Main.WF (Main.handleDayClick cfg i s).1 := by
  obtain ⟨hsel, hds, hci⟩ := hs
  unfold Main.handleDayClick
  by_cases hd : s.isDragging = true
  · rw [if_pos hd]
    exact ⟨hsel, hds, hci⟩
  · rw [if_neg hd]
    by_cases hh : setHas s.selectedDays i = true
    · rw [if_pos hh]
      refine ⟨?_, hds, ?_⟩
      · intro x hx
        exact hsel x (List.mem_of_mem_filter hx)
      · intro x hx
        cases hx
    · rw [if_neg hh]
      by_cases hlen : (s.selectedDays.length == 0) = true
      · rw [if_pos hlen]
        refine ⟨?_, hds, ?_⟩
        · intro x hx
          rcases List.mem_singleton.mp hx with rfl
          exact hi
        · intro x hx
          cases hx
          exact hi
      · rw [if_neg hlen]
        dsimp only
        by_cases hadj :
            ((i == ((sortAsc s.selectedDays).getLastD 0 + 1) % 7)
              || (i == ((sortAsc s.selectedDays).headD 0 + 6) % 7)) = true
        · rw [if_pos hadj]
          refine ⟨?_, hds, hci⟩
          intro x hx
          unfold setAdd at hx
          by_cases hc : s.selectedDays.contains i = true
          · rw [if_pos hc] at hx
            exact hsel x hx
          · rw [if_neg hc] at hx
            rcases List.mem_append.mp hx with hx | hx
            · exact hsel x hx
            · rcases List.mem_singleton.mp hx with rfl
              exact hi
        · rw [if_neg hadj]
          rcases validateSelection_shape cfg
              (circularRun
                (s.checkInDay.getD ((sortAsc s.selectedDays).headD 0)) i)
            with hv | ⟨e, hv⟩
          · rw [hv]
            refine ⟨?_, hds, ?_⟩
            · intro x hx
              exact circularRun_mem_lt hx
            · intro x hx
              cases hx
          · rw [hv]
            exact ⟨hsel, hds, hci⟩

/-- Drag starts of the main variant preserve the index-range invariant. -/
theorem mainDragStart_WF (i : Nat) (s : Main.State)
    (hs : Main.WF s) (hi : i < 7) :
    Main.WF (Main.handleDragStart i s) := by
  obtain ⟨hsel, hds, hci⟩ := hs
  refine ⟨?_, ?_, hci⟩
  · intro x hx
    rcases List.mem_singleton.mp hx with rfl
    exact hi
  · intro x hx
    cases hx
    exact hi

/-- Drag hovers of the main variant preserve the index-range invariant. -/
theorem mainDragOver_WF (i : Nat) (s : Main.State)
    (hs : Main.WF s) (hi : i < 7) :
    Main.WF (Main.handleDragOver i s) := by
  obtain ⟨hsel, hds, hci⟩ := hs
  unfold Main.handleDragOver
  cases hds2 : s.dragStart with
  | none =>
    show Main.WF s
    exact ⟨hsel, hds, hci⟩
  | some ds =>
    have hds7 : ds < 7 := hds ds hds2
    dsimp only
    by_cases hdrag : (!s.isDragging) = true
    · rw [if_pos hdrag]
      exact ⟨hsel, hds, hci⟩
    · rw [if_neg hdrag]
      refine ⟨?_, ?_, ?_⟩
      · intro x hx
        dsimp only at hx
        have hle : x ≤ Nat.max ds i := linearFill_mem_le hx
        have hm : Nat.max ds i < 7 := Nat.max_lt.mpr ⟨hds7, hi⟩
        omega
      · intro x hx
        dsimp only at hx
        cases hx
        exact hds7
      · exact hci

/-- Drag ends of the main variant preserve the index-range invariant. -/
theorem mainDragEnd_WF (cfg : Config) (s : Main.State)
    (hs : Main.WF s) :
    Main.WF (Main.handleDragEnd cfg s).1 := by
  obtain ⟨hsel, hds, hci⟩ := hs
  unfold Main.handleDragEnd
  rcases validateSelection_shape cfg s.selectedDays with hv | ⟨e, hv⟩
  · rw [hv]
    dsimp only
    refine ⟨hsel, ?_, hci⟩
    intro x hx
    cases hx
  · rw [hv]
    dsimp only
    refine ⟨?_, ?_, hci⟩
    · intro x hx
      cases hx
    · intro x hx
      cases hx

/-- Resets of the main variant preserve the index-range invariant. -/
theorem mainReset_WF (s : Main.State) (hs : Main.WF s) :
    Main.WF (Main.handleReset s) := by
  obtain ⟨hsel, hds, hci⟩ := hs
  unfold Main.handleReset
  refine ⟨?_, ?_, ?_⟩
  · intro x hx
    cases hx
  · exact hds
  · intro x hx
    cases hx

/-- Every gesture of the main variant preserves the index-range invariant. -/
theorem mainStep_WF (cfg : Config) (s : Main.State) (op : Main.Op)
    (hs : Main.WF s) (hop : Main.opWF op) :
    Main.WF (Main.step cfg s op) := by
  cases op with
  | click i => exact mainClick_WF cfg i s hs hop
  | dragStart i => exact mainDragStart_WF i s hs hop
  | dragOver i => exact mainDragOver_WF i s hs hop
  | dragEnd => exact mainDragEnd_WF cfg s hs
  | reset => exact mainReset_WF s hs

/-- Every gesture trace of the main variant preserves the index-range
invariant. -/
theorem mainRun_WF (cfg : Config) (s : Main.State) (ops : List Main.Op)
    (hs : Main.WF s) (hops : ∀ op ∈ ops, Main.opWF op) :
    Main.WF (Main.run cfg s ops) := by
  induction ops generalizing s with
  | nil => exact hs
  | cons op rest ih =>
    exact ih (Main.step cfg s op)
      (mainStep_WF cfg s op hs (hops op (List.mem_cons_self op rest)))
      (fun o ho => hops o (List.mem_cons_of_mem op ho))

/-- Clicks of the wrap-capable variant preserve the index-range invariant. -/
theorem p8Click_WF (i : Nat) (s : P8.State) (hs : P8.WF s) (hi : i < 7) :
    P8.WF (P8.handleDayClick i s) := by
  obtain ⟨hsel, hds⟩ := hs
  unfold P8.handleDayClick
  by_cases hd : s.isDragging = true
  · rw [if_pos hd]
    exact ⟨hsel, hds⟩
  · rw [if_neg hd]
    by_cases hh : setHas s.selectedDays i = true
    · rw [if_pos hh]
      refine ⟨?_, hds⟩
      intro x hx
      exact hsel x (List.mem_of_mem_filter hx)
    · rw [if_neg hh]
      refine ⟨?_, hds⟩
      intro x hx
      unfold setAdd at hx
      by_cases hc : s.selectedDays.contains i = true
      · rw [if_pos hc] at hx
        exact hsel x hx
      · rw [if_neg hc] at hx
        rcases List.mem_append.mp hx with hx | hx
        · exact hsel x hx
        · rcases List.mem_singleton.mp hx with rfl
          exact hi

/-- Drag starts of the wrap-capable variant preserve the index-range
invariant. -/
theorem p8DragStart_WF (i : Nat) (s : P8.State) (hs : P8.WF s) (hi : i < 7) :
    P8.WF (P8.handleDragStart i s) := by
  obtain ⟨hsel, hds⟩ := hs
  refine ⟨?_, ?_⟩
  · intro x hx
    rcases List.mem_singleton.mp hx with rfl
    exact hi
  · intro x hx
    cases hx
    exact hi

/-- Drag hovers of the wrap-capable variant preserve the index-range
invariant. -/
theorem p8DragOver_WF (i : Nat) (s : P8.State) (hs : P8.WF s) ( _hi : i < 7) :
    P8.WF (P8.handleDragOver i s) := by
  obtain ⟨hsel, hds⟩ := hs
  unfold P8.handleDragOver
  cases hds2 : s.dragStart with
  | none =>
    show P8.WF s
    exact ⟨hsel, hds⟩
  | some ds =>
    have hds7 : ds < 7 := hds ds hds2
    dsimp only
    by_cases hdrag : (!s.isDragging) = true
    · rw [if_pos hdrag]
      exact ⟨hsel, hds⟩
    · rw [if_neg hdrag]
      refine ⟨?_, ?_⟩
      · intro x hx
        dsimp only at hx
        exact circularRun_mem_lt hx
      · intro x hx
        dsimp only at hx
        cases hx
        exact hds7

/-- Drag ends of the wrap-capable variant preserve the index-range
invariant. -/
theorem p8DragEnd_WF (cfg : Config) (s : P8.State) (hs : P8.WF s) :
    P8.WF (P8.handleDragEnd cfg s).1 := by
  obtain ⟨hsel, hds⟩ := hs
  unfold P8.handleDragEnd
  dsimp only
  by_cases hlen : s.selectedDays.length > 0
  · rw [if_pos hlen]
    rcases validateSelection_shape cfg s.selectedDays with hv | ⟨e, hv⟩
    · rw [hv]
      dsimp only
      refine ⟨hsel, ?_⟩
      intro x hx
      cases hx
    · rw [hv]
      dsimp only
      refine ⟨?_, ?_⟩
      · intro x hx
        cases hx
      · intro x hx
        cases hx
  · rw [if_neg hlen]
    refine ⟨hsel, ?_⟩
    intro x hx
    cases hx

/-- Resets of the wrap-capable variant preserve the index-range invariant. -/
theorem p8Reset_WF (s : P8.State) (hs : P8.WF s) :
    P8.WF (P8.handleReset s) := by
  obtain ⟨hsel, hds⟩ := hs
  unfold P8.handleReset
  refine ⟨?_, ?_⟩
  · intro x hx
    cases hx
  · exact hds

/-- Every gesture of the wrap-capable variant preserves the index-range
invariant. -/
theorem p8Step_WF (cfg : Config) (s : P8.State) (op : P8.Op)
    (hs : P8.WF s) (hop : P8.opWF op) :
    P8.WF (P8.step cfg s op) := by
  cases op with
  | click i => exact p8Click_WF i s hs hop
  | dragStart i => exact p8DragStart_WF i s hs hop
  | dragOver i => exact p8DragOver_WF i s hs hop
  | dragEnd => exact p8DragEnd_WF cfg s hs
  | reset => exact p8Reset_WF s hs

/-- Every gesture trace of the wrap-capable variant preserves the
index-range invariant. -/
theorem p8Run_WF (cfg : Config) (s : P8.State) (ops : List P8.Op)
    (hs : P8.WF s) (hops : ∀ op ∈ ops, P8.opWF op) :
    P8.WF (P8.run cfg s ops) := by
  induction ops generalizing s with
  | nil => exact hs
  | cons op rest ih =>
    exact ih (P8.step cfg s op)
      (p8Step_WF cfg s op hs (hops op (List.mem_cons_self op rest)))
      (fun o ho => hops o (List.mem_cons_of_mem op ho))

/-- C9: in both variants every operation (day click, drag start, drag over,
drag end, reset) preserves the invariant that the selection set, the drag
anchor and the pending check-in day only hold indices in [0,6], provided the
gesture arguments are in [0,6]; consequently every state reached from a
well-formed initial state by a trace of well-formed gestures is
well-formed. -/
theorem C9_index_range_invariant :
    (∀ (cfg : Config) (s : Main.State) (op : Main.Op),
      Main.WF s → Main.opWF op → Main.WF (Main.step cfg s op)) ∧
    (∀ (cfg : Config) (s : Main.State) (ops : List Main.Op),
      Main.WF s → (∀ op ∈ ops, Main.opWF op) →
      Main.WF (Main.run cfg s ops)) ∧
    (∀ (cfg : Config) (s : P8.State) (op : P8.Op),
      P8.WF s → P8.opWF op → P8.WF (P8.step cfg s op)) ∧
    (∀ (cfg : Config) (s : P8.State) (ops : List P8.Op),
      P8.WF s → (∀ op ∈ ops, P8.opWF op) →
      P8.WF (P8.run cfg s ops)) :=
  ⟨mainStep_WF, mainRun_WF, p8Step_WF, p8Run_WF⟩

/-- C9 witness: the trace click 5, click 2 from the well-formed initial
selection {1} ends in a well-formed state. -/
theorem C9_index_range_invariant_witness :
    Main.WF (Main.run defaultConfig (Main.initState [1])
      [Main.Op.click 5, Main.Op.click 2]) :=
  C9_index_range_invariant.2.1 defaultConfig (Main.initState [1])
    [Main.Op.click 5, Main.Op.click 2] (by decide) (by decide)

/-- C1 counterexample: in the main variant, startDrag(3), dragOver(5),
dragOver(1) leaves the selection equal to the linear span {1,2,3}, not the
circular run {3,4,5,6,0,1} from the anchor — day 6, which lies in the
circular run from 3 to 1, is not selected. -/
theorem C1_counterexample :
    (Main.run defaultConfig (Main.initState [])
      [Main.Op.dragStart 3, Main.Op.dragOver 5,
       Main.Op.dragOver 1]).selectedDays = [1, 2, 3] ∧
    circularRun 3 1 = [3, 4, 5, 6, 0, 1] ∧
    setHas (Main.run defaultConfig (Main.initState [])
      [Main.Op.dragStart 3, Main.Op.dragOver 5,
       Main.Op.dragOver 1]).selectedDays 6 = false := by
  decide

/-- C1 amended: in the wrap-capable variant (part_008) `dragOver(i)` while
dragging replaces the selection with the circular run from the anchor to
`i`, re-derived afresh on each call, so startDrag(3), dragOver(5),
dragOver(1) leaves {3,4,5,6,0,1}; in the main variant `dragOver` instead
fills the linear span from min(anchor, i) to max(anchor, i) with no
wrap-around, so the same gesture leaves {1,2,3}. -/
theorem C1_amended_dragOver :
    (∀ (a i : Nat) (s : P8.State),
      s.isDragging = true → s.dragStart = some a →
      (P8.handleDragOver i s).selectedDays = circularRun a i) ∧
    (P8.run defaultConfig (P8.initState [])
      [P8.Op.dragStart 3, P8.Op.dragOver 5,
       P8.Op.dragOver 1]).selectedDays = [3, 4, 5, 6, 0, 1] ∧
    (∀ (a i : Nat) (s : Main.State),
      s.isDragging = true → s.dragStart = some a →
      (Main.handleDragOver i s).selectedDays
        = (List.range (Nat.max a i + 1 - Nat.min a i)).map
            (fun k => Nat.min a i + k)) ∧
    (Main.run defaultConfig (Main.initState [])
      [Main.Op.dragStart 3, Main.Op.dragOver 5,
       Main.Op.dragOver 1]).selectedDays = [1, 2, 3] := by
  refine ⟨?_, by decide, ?_, by decide⟩
  · intro a i s h1 h2
    unfold P8.handleDragOver
    rw [h2]
    simp [h1]
  · intro a i s h1 h2
    unfold Main.handleDragOver
    rw [h2]
    simp [h1]

/-- C1 amended witness: hovering day 1 while dragging from anchor 3 in the
wrap-capable variant yields the circular run from 3 to 1. -/
theorem C1_amended_dragOver_witness :
    (P8.handleDragOver 1 ⟨[3, 4, 5], true, some 3⟩).selectedDays
      = circularRun 3 1 :=
  C1_amended_dragOver.1 3 1 ⟨[3, 4, 5], true, some 3⟩ rfl rfl

/-- Mapping each looked-up `Day` record back to its index recovers the index
list, for in-range indices. -/
theorem notify_map_index (l : List Nat) (h : ∀ x ∈ l, x < 7) :
    l.map (fun i => (DAYS_OF_WEEK.getD i ⟨"", "", "", 7⟩).index) = l := by
  induction l with
  | nil => rfl
  | cons a t ih =>
    simp only [List.map_cons]
    rw [DAYS_OF_WEEK_getD_index a (h a (List.mem_cons_self a t)),
        ih (fun x hx => h x (List.mem_cons_of_mem a hx))]

/-- C2 counterexample: the reachable, valid selection committed by clicking
day 5 then day 2 in the main variant is notified as the Day records with
index list [5,6,0,1,2] — the set's insertion order — which is not ordered by
day index ascending. -/
theorem C2_counterexample :
    (Main.notifyList (Main.run defaultConfig (Main.initState [])
      [Main.Op.click 5, Main.Op.click 2])).map Day.index = [5, 6, 0, 1, 2] ∧
    sortAsc [5, 6, 0, 1, 2] = [0, 1, 2, 5, 6] ∧
    ([5, 6, 0, 1, 2] : List Nat) ≠ [0, 1, 2, 5, 6] := by
  decide

/-- C2 amended: after every mutation the selection-change callback receives
the `Day` records of exactly the selected indices, in the set's insertion
(iteration) order rather than ascending by index: mapping each record to its
index recovers the selection list itself, and every record is one of the
seven `DAYS_OF_WEEK` entries. Holds for every well-formed state of either
variant. -/
theorem C2_amended_notify :
    (∀ s : Main.State, Main.WF s →
      ((Main.notifyList s).map Day.index = s.selectedDays ∧
       ∀ d ∈ Main.notifyList s, d ∈ DAYS_OF_WEEK)) ∧
    (∀ s : P8.State, P8.WF s →
      ((P8.notifyList s).map Day.index = s.selectedDays ∧
       ∀ d ∈ P8.notifyList s, d ∈ DAYS_OF_WEEK)) := by
  constructor
  · intro s hs
    obtain ⟨hsel, -, -⟩ := hs
    constructor
    · unfold Main.notifyList
      rw [List.map_map]
      exact notify_map_index s.selectedDays hsel
    · intro d hd
      unfold Main.notifyList at hd
      rcases List.mem_map.mp hd with ⟨i, hi, rfl⟩
      exact DAYS_OF_WEEK_getD_mem i (hsel i hi)
  · intro s hs
    obtain ⟨hsel, -⟩ := hs
    constructor
    · unfold P8.notifyList
      rw [List.map_map]
      exact notify_map_index s.selectedDays hsel
    · intro d hd
      unfold P8.notifyList at hd
      rcases List.mem_map.mp hd with ⟨i, hi, rfl⟩
      exact DAYS_OF_WEEK_getD_mem i (hsel i hi)

/-- C2 amended witness: the wrap-around selection [5,6,0,1,2] is notified in
insertion order. -/
theorem C2_amended_notify_witness :
    (Main.notifyList ⟨[5, 6, 0, 1, 2], false, none, none⟩).map Day.index
      = [5, 6, 0, 1, 2] :=
  (C2_amended_notify.1 ⟨[5, 6, 0, 1, 2], false, none, none⟩ (by decide)).1
